import Mathlib

/-!
Shallow embedding of `src/main.rs` of the keystr keystroke counter.

Machine integers (`u64`, `u32`) are modelled as `Nat`; wrapping of the one
subtraction where unsigned underflow matters (`get_weekly_stats` and
`get_monthly_stats`) is made explicit with `u64_wrapping_sub`, which computes
the release-mode wrapping result of `a - b` on `u64`.  System time is passed
as an explicit `now : Nat` parameter (seconds since the epoch), replacing the
calls to `SystemTime::now()`.  The file system is modelled by explicit file
states (`DataFile`, `PidFile`), and the JSON text layer by a JSON value tree
(`Json`): serde derive serialization and deserialization of the two structs
is embedded at the level of that tree.
-/

/-- Modulus of 64-bit unsigned arithmetic, written as a literal. -/
def U64_MOD : Nat := 18446744073709551616

/-- Release-mode wrapping subtraction on `u64`, on `Nat` representatives. -/
def u64_wrapping_sub (a b : Nat) : Nat :=
  (a % U64_MOD + (U64_MOD - b % U64_MOD)) % U64_MOD

/-- Embedding of `struct DailyRecord { date, count, timestamp }`. -/
structure DailyRecord where
  date : String
  count : Nat
  timestamp : Nat
deriving DecidableEq, Repr

/-- Embedding of `struct KeystrokeData { total_count, daily_records }`. -/
structure KeystrokeData where
  total_count : Nat
  daily_records : List DailyRecord
deriving DecidableEq, Repr

/-- Embedding of `KeystrokeData::new`. -/
def KeystrokeData.new : KeystrokeData :=
  { total_count := 0, daily_records := [] }

/-- Embedding of `format_date_storage`: whole days since the epoch printed in
decimal, from the current time `now` in seconds. -/
def format_date_storage (now : Nat) : String :=
  toString (now / 86400)

/-- Embedding of the body of `KeystrokeData::increment` acting on
`daily_records`: bump the count of the first record whose `date` equals
`today`, or push a fresh record `{ date: today, count: 1, timestamp }` at the
end when none matches. -/
def incrementRecords (recs : List DailyRecord) (today : String) (ts : Nat) :
    List DailyRecord :=
  match recs with
  | [] => [{ date := today, count := 1, timestamp := ts }]
  | r :: rest =>
    if r.date = today then
      { date := r.date, count := r.count + 1, timestamp := r.timestamp } :: rest
    else
      r :: incrementRecords rest today ts

/-- Embedding of `KeystrokeData::increment`, with the two system-clock reads
(`format_date_storage()` and `current_timestamp()`) replaced by the explicit
current time `now`. -/
def KeystrokeData.increment (d : KeystrokeData) (now : Nat) : KeystrokeData :=
  { total_count := d.total_count + 1,
    daily_records := incrementRecords d.daily_records (format_date_storage now) now }

/-- Iterated increments starting from the empty store, at the given sequence
of clock readings. -/
def applyIncrements (nows : List Nat) : KeystrokeData :=
  nows.foldl KeystrokeData.increment KeystrokeData.new

-- Helper lemmas about increment.

theorem increment_total_count (d : KeystrokeData) (now : Nat) :
    (d.increment now).total_count = d.total_count + 1 := rfl

theorem foldl_increment_total (nows : List Nat) :
    ∀ d : KeystrokeData,
      (nows.foldl KeystrokeData.increment d).total_count =
        d.total_count + nows.length := by
  induction nows with
  | nil => intro d; simp
  | cons t rest ih =>
    intro d
    simp only [List.foldl_cons, List.length_cons]
    rw [ih, increment_total_count]
    omega

theorem incrementRecords_of_mem (today : String) (ts : Nat) :
    ∀ recs : List DailyRecord, today ∈ recs.map DailyRecord.date →
      (incrementRecords recs today ts).map DailyRecord.date =
        recs.map DailyRecord.date := by
  intro recs
  induction recs with
  | nil => intro h; simp at h
  | cons r rest ih =>
    intro h
    by_cases hr : r.date = today
    · simp [incrementRecords, hr]
    · have hrest : today ∈ rest.map DailyRecord.date := by
        simp only [List.map_cons, List.mem_cons] at h
        rcases h with h | h
        · exact absurd h.symm hr
        · exact h
      simp [incrementRecords, hr, ih hrest]

theorem incrementRecords_of_not_mem (today : String) (ts : Nat) :
    ∀ recs : List DailyRecord, today ∉ recs.map DailyRecord.date →
      incrementRecords recs today ts =
        recs ++ [{ date := today, count := 1, timestamp := ts }] := by
  intro recs
  induction recs with
  | nil => intro _; simp [incrementRecords]
  | cons r rest ih =>
    intro h
    simp only [List.map_cons, List.mem_cons, not_or] at h
    have hr : ¬ r.date = today := fun e => h.1 e.symm
    simp [incrementRecords, hr, ih h.2]

theorem increment_dates (d : KeystrokeData) (now : Nat) :
    (d.increment now).daily_records.map DailyRecord.date =
      if format_date_storage now ∈ d.daily_records.map DailyRecord.date
      then d.daily_records.map DailyRecord.date
      else d.daily_records.map DailyRecord.date ++ [format_date_storage now] := by
  by_cases h : format_date_storage now ∈ d.daily_records.map DailyRecord.date
  · simp [KeystrokeData.increment, h,
      incrementRecords_of_mem (format_date_storage now) now d.daily_records h]
  · simp [KeystrokeData.increment, h,
      incrementRecords_of_not_mem (format_date_storage now) now d.daily_records h]

theorem increment_dates_nodup (d : KeystrokeData) (now : Nat)
    (h : (d.daily_records.map DailyRecord.date).Nodup) :
    ((d.increment now).daily_records.map DailyRecord.date).Nodup := by
  rw [increment_dates]
  by_cases hm : format_date_storage now ∈ d.daily_records.map DailyRecord.date
  · simpa [hm] using h
  · simp only [hm, if_false]
    rw [List.nodup_append]
    refine ⟨h, List.nodup_singleton _, ?_⟩
    intro x hx hx1
    simp only [List.mem_singleton] at hx1
    subst hx1
    exact hm hx

theorem applyIncrements_dates_nodup (nows : List Nat) :
    (((applyIncrements nows).daily_records.map DailyRecord.date)).Nodup := by
  suffices h : ∀ d : KeystrokeData,
      (d.daily_records.map DailyRecord.date).Nodup →
      (((nows.foldl KeystrokeData.increment d).daily_records.map
          DailyRecord.date)).Nodup by
    exact h KeystrokeData.new (by simp [KeystrokeData.new])
  induction nows with
  | nil => intro d hd; simpa using hd
  | cons t rest ih =>
    intro d hd
    simpa using ih (d.increment t) (increment_dates_nodup d t hd)

theorem foldl_increment_one_bucket (b : String) (nows : List Nat)
    (hb : ∀ t ∈ nows, format_date_storage t = b) :
    ∀ tc k ts : Nat,
      (nows.foldl KeystrokeData.increment
          { total_count := tc,
            daily_records := [{ date := b, count := k, timestamp := ts }] }
        : KeystrokeData).daily_records =
        [{ date := b, count := k + nows.length, timestamp := ts }] := by
  induction nows with
  | nil => intro tc k ts; simp
  | cons t rest ih =>
    intro tc k ts
    have ht : format_date_storage t = b := hb t (List.mem_cons_self t rest)
    have hrest : ∀ x ∈ rest, format_date_storage x = b := fun x hx =>
      hb x (List.mem_cons_of_mem t hx)
    have hstep :
        (KeystrokeData.increment
            { total_count := tc,
              daily_records := [{ date := b, count := k, timestamp := ts }] } t) =
          { total_count := tc + 1,
            daily_records := [{ date := b, count := k + 1, timestamp := ts }] } := by
      simp [KeystrokeData.increment, incrementRecords, ht]
    simp only [List.foldl_cons, hstep, List.length_cons]
    rw [ih hrest]
    have : k + 1 + rest.length = k + (rest.length + 1) := by omega
    rw [this]

theorem incrementRecords_filter_other (today : String) (ts : Nat) :
    ∀ recs : List DailyRecord,
      (incrementRecords recs today ts).filter (fun r => decide (r.date ≠ today)) =
        recs.filter (fun r => decide (r.date ≠ today)) := by
  intro recs
  induction recs with
  | nil => simp [incrementRecords]
  | cons r rest ih =>
    by_cases hr : r.date = today
    · simp [incrementRecords, hr]
    · simpa [incrementRecords, hr] using ih

/-- Embedding of `KeystrokeData::get_daily_stats`: clone the records, sort by
descending `timestamp` with a stable sort, and keep the first `days`. -/
def get_daily_stats (d : KeystrokeData) (days : Nat) : List DailyRecord :=
  ((d.daily_records.mergeSort
      (fun a b => decide (b.timestamp ≤ a.timestamp))).take days)

/-- Embedding of `KeystrokeData::get_weekly_stats`: the cutoff
`current_timestamp() - 7*24*60*60` is a `u64` subtraction, so it wraps when
`now` is smaller than the window. -/
def get_weekly_stats (d : KeystrokeData) (now : Nat) : Nat :=
  let seven_days_ago := u64_wrapping_sub now (7 * 24 * 60 * 60)
  ((d.daily_records.filter
      (fun r => decide (seven_days_ago ≤ r.timestamp))).map DailyRecord.count).sum

/-- Embedding of `KeystrokeData::get_monthly_stats`, with the same wrapping
`u64` subtraction for the 30-day cutoff. -/
def get_monthly_stats (d : KeystrokeData) (now : Nat) : Nat :=
  let thirty_days_ago := u64_wrapping_sub now (30 * 24 * 60 * 60)
  ((d.daily_records.filter
      (fun r => decide (thirty_days_ago ≤ r.timestamp))).map DailyRecord.count).sum

/-- Modelled from the spec: `windowedSum(windowSeconds)` is the sum of `count`
over records whose `timestamp >= now - windowSeconds`, where the cutoff
saturates at zero instead of wrapping when `now < windowSeconds` (here by
truncated `Nat` subtraction). -/
def windowedSum_spec (d : KeystrokeData) (now windowSeconds : Nat) : Nat :=
  ((d.daily_records.filter
      (fun r => decide (now - windowSeconds ≤ r.timestamp))).map
    DailyRecord.count).sum

theorem u64_wrapping_sub_of_le (a b : Nat) (hb : b ≤ a) (ha : a < U64_MOD) :
    u64_wrapping_sub a b = a - b := by
  unfold u64_wrapping_sub U64_MOD
  unfold U64_MOD at ha
  omega

/-- JSON value tree, standing for the parsed text of `data.json`; numbers are
restricted to the unsigned integers actually used by the schema. -/
inductive Json where
  | null : Json
  | bool (b : Bool) : Json
  | num (n : Nat) : Json
  | str (s : String) : Json
  | arr (elems : List Json) : Json
  | obj (fields : List (String × Json)) : Json

/-- Serde deserialization of a `u64` field value: a JSON number within the
`u64` range; anything else is a deserialization error. -/
def asU64 : Json → Except String Nat
  | Json.num n => if n < U64_MOD then Except.ok n else Except.error "u64 out of range"
  | _ => Except.error "invalid type: expected u64"

/-- Serde-derived deserialization of `DailyRecord` from an object field list:
fields may come in any order, unknown fields are skipped, duplicate or
ill-typed known fields are errors, and a field still missing at the end is an
error (the derive has no `serde(default)` attributes). -/
def drFromFields : List (String × Json) → Option String → Option Nat →
    Option Nat → Except String DailyRecord
  | [], some d, some c, some t =>
      Except.ok { date := d, count := c, timestamp := t }
  | [], _, _, _ => Except.error "missing field"
  | (k, v) :: rest, od, oc, ot =>
    if k = "date" then
      match od with
      | some _ => Except.error "duplicate field date"
      | none =>
        match v with
        | Json.str s => drFromFields rest (some s) oc ot
        | _ => Except.error "invalid type: expected string"
    else if k = "count" then
      match oc with
      | some _ => Except.error "duplicate field count"
      | none =>
        match asU64 v with
        | Except.ok n => drFromFields rest od (some n) ot
        | Except.error e => Except.error e
    else if k = "timestamp" then
      match ot with
      | some _ => Except.error "duplicate field timestamp"
      | none =>
        match asU64 v with
        | Except.ok n => drFromFields rest od oc (some n)
        | Except.error e => Except.error e
    else
      drFromFields rest od oc ot

/-- Serde-derived deserialization of one `DailyRecord` JSON value. -/
def recordFromJson : Json → Except String DailyRecord
  | Json.obj fields => drFromFields fields none none none
  | _ => Except.error "invalid type: expected object"

/-- Serde deserialization of the `daily_records` array, element by element,
stopping at the first error. -/
def recordsFromJson : List Json → Except String (List DailyRecord)
  | [] => Except.ok []
  | j :: rest =>
    match recordFromJson j with
    | Except.error e => Except.error e
    | Except.ok r =>
      match recordsFromJson rest with
      | Except.error e => Except.error e
      | Except.ok rs => Except.ok (r :: rs)

/-- Serde-derived deserialization of `KeystrokeData` from an object field
list, with the same field discipline as `drFromFields`. -/
def kdFromFields : List (String × Json) → Option Nat →
    Option (List DailyRecord) → Except String KeystrokeData
  | [], some tc, some drs =>
      Except.ok { total_count := tc, daily_records := drs }
  | [], _, _ => Except.error "missing field"
  | (k, v) :: rest, otc, odr =>
    if k = "total_count" then
      match otc with
      | some _ => Except.error "duplicate field total_count"
      | none =>
        match asU64 v with
        | Except.ok n => kdFromFields rest (some n) odr
        | Except.error e => Except.error e
    else if k = "daily_records" then
      match odr with
      | some _ => Except.error "duplicate field daily_records"
      | none =>
        match v with
        | Json.arr elems =>
          match recordsFromJson elems with
          | Except.ok rs => kdFromFields rest otc (some rs)
          | Except.error e => Except.error e
        | _ => Except.error "invalid type: expected array"
    else
      kdFromFields rest otc odr

/-- Serde-derived deserialization of a `KeystrokeData` JSON value, as invoked
by `serde_json::from_str` in `load_data`. -/
def kdFromJson : Json → Except String KeystrokeData
  | Json.obj fields => kdFromFields fields none none
  | _ => Except.error "invalid type: expected object"

/-- Serde-derived serialization of a `DailyRecord`, fields in declaration
order. -/
def DailyRecord.toJson (r : DailyRecord) : Json :=
  Json.obj [("date", Json.str r.date), ("count", Json.num r.count),
    ("timestamp", Json.num r.timestamp)]

/-- Serde-derived serialization of a `KeystrokeData`, fields in declaration
order, as produced by `serde_json::to_string_pretty` in `save_data`. -/
def KeystrokeData.toJson (d : KeystrokeData) : Json :=
  Json.obj [("total_count", Json.num d.total_count),
    ("daily_records", Json.arr (d.daily_records.map DailyRecord.toJson))]

/-- State of the data file as `load_data` can encounter it: absent, present
but unreadable (`read_to_string` fails, so the code substitutes the text
`"\x7b\x7d"`, i.e. the empty JSON object), present but not parsable as JSON
text, or present and parsing to the JSON value `j`. -/
inductive DataFile where
  | absent : DataFile
  | unreadable : DataFile
  | malformed : DataFile
  | parsed (j : Json) : DataFile

/-- Embedding of `load_data`: a missing file and every read, parse or
deserialization failure fall back to `KeystrokeData::new()`; the function
never returns an error. -/
def load_data : DataFile → KeystrokeData
  | DataFile.absent => KeystrokeData.new
  | DataFile.unreadable =>
    match kdFromJson (Json.obj []) with
    | Except.ok d => d
    | Except.error _ => KeystrokeData.new
  | DataFile.malformed => KeystrokeData.new
  | DataFile.parsed j =>
    match kdFromJson j with
    | Except.ok d => d
    | Except.error _ => KeystrokeData.new

/-- Embedding of `save_data`: the JSON value written to the data file.  The
`serde_json::to_string_pretty` call cannot fail on this type, and the
pretty-printed text parses back to the same JSON value, so a later load sees
`DataFile.parsed (save_data d)`. -/
def save_data (d : KeystrokeData) : Json :=
  KeystrokeData.toJson d

/-- A store whose numeric fields fit in `u64`, which is guaranteed by the
types in the Rust source. -/
def KeystrokeData.WF (d : KeystrokeData) : Prop :=
  d.total_count < U64_MOD ∧
    ∀ r ∈ d.daily_records, r.count < U64_MOD ∧ r.timestamp < U64_MOD

/-- Model of Rust `str::trim` on the character list of a string: strip
leading and trailing whitespace. -/
def rustTrim (s : String) : String :=
  String.mk
    (((s.data.dropWhile Char.isWhitespace).reverse.dropWhile
        Char.isWhitespace).reverse)

/-- Value of a decimal digit character, `none` on a non-digit. -/
def digitVal (c : Char) : Option Nat :=
  if c.isDigit then some (c.toNat - 48) else none

/-- Accumulate decimal digits left to right; `none` at the first non-digit. -/
def parseDigitsAux : List Char → Nat → Option Nat
  | [], acc => some acc
  | c :: rest, acc =>
    match digitVal c with
    | some v => parseDigitsAux rest (acc * 10 + v)
    | none => none

/-- Model of Rust `str::parse::<u32>()`: an optional leading plus sign, then
one or more decimal digits whose value fits in `u32`; anything else is a
parse error. -/
def parse_u32 (s : String) : Option Nat :=
  let chars :=
    match s.data with
    | '+' :: rest => rest
    | cs => cs
  match chars with
  | [] => none
  | _ =>
    match parseDigitsAux chars 0 with
    | some n => if n < 4294967296 then some n else none
    | none => none

/-- State of the PID file as `is_running` can encounter it. -/
inductive PidFile where
  | absent : PidFile
  | unreadable : PidFile
  | readable (content : String) : PidFile
deriving DecidableEq

/-- Environment seen by `is_running`: the PID file state and the outcome of
the `kill -0` liveness probe for each PID. -/
structure PidEnv where
  pidFile : PidFile
  alive : Nat → Bool

/-- Embedding of `is_running` (Unix branch): returns the reported PID, if
any, together with the PID file state it leaves behind.  A missing file,
unreadable file or unparsable content reports none without touching the
file; a parsed PID that fails the liveness probe removes the stale file and
reports none; a live PID is reported with the file kept. -/
def is_running (env : PidEnv) : Option Nat × PidFile :=
  match env.pidFile with
  | PidFile.absent => (none, PidFile.absent)
  | PidFile.unreadable => (none, PidFile.unreadable)
  | PidFile.readable content =>
    match parse_u32 (rustTrim content) with
    | none => (none, PidFile.readable content)
    | some pid =>
      if env.alive pid then (some pid, PidFile.readable content)
      else (none, PidFile.absent)

theorem recordFromJson_toJson (r : DailyRecord) (hc : r.count < U64_MOD)
    (ht : r.timestamp < U64_MOD) :
    recordFromJson (DailyRecord.toJson r) = Except.ok r := by
  simp [DailyRecord.toJson, recordFromJson, drFromFields, asU64, hc, ht]

theorem recordsFromJson_map_toJson (l : List DailyRecord)
    (h : ∀ r ∈ l, r.count < U64_MOD ∧ r.timestamp < U64_MOD) :
    recordsFromJson (l.map DailyRecord.toJson) = Except.ok l := by
  induction l with
  | nil => simp [recordsFromJson]
  | cons r rest ih =>
    have hr := h r (List.mem_cons_self r rest)
    have hrest := ih fun x hx => h x (List.mem_cons_of_mem r hx)
    simp [recordsFromJson, recordFromJson_toJson r hr.1 hr.2, hrest]

theorem load_save_roundtrip (d : KeystrokeData) (h : d.WF) :
    load_data (DataFile.parsed (save_data d)) = d := by
  obtain ⟨htc, hrec⟩ := h
  simp [load_data, save_data, KeystrokeData.toJson, kdFromJson, kdFromFields,
    asU64, htc, recordsFromJson_map_toJson d.daily_records hrec]

/-- Claim C1: contrary to the claim, the weekly and monthly cutoffs are
computed by an unsaturated `u64` subtraction; when the current timestamp is
smaller than the window the cutoff wraps to a value near `2^64` and wrongly
excludes every record, while the saturating sum required by the spec keeps
them.  Evaluated at the failing input `now = 0` with a single record of
count 5 at timestamp 0. -/
theorem C1_window_cutoff_wraps :
    get_weekly_stats
        { total_count := 5,
          daily_records := [{ date := "0", count := 5, timestamp := 0 }] } 0 = 0 ∧
    get_monthly_stats
        { total_count := 5,
          daily_records := [{ date := "0", count := 5, timestamp := 0 }] } 0 = 0 ∧
    windowedSum_spec
        { total_count := 5,
          daily_records := [{ date := "0", count := 5, timestamp := 0 }] }
        0 604800 = 5 ∧
    windowedSum_spec
        { total_count := 5,
          daily_records := [{ date := "0", count := 5, timestamp := 0 }] }
        0 2592000 = 5 := by
  decide

/-- Claim C2, counterexample: a data file whose JSON object has
`total_count` but no `daily_records` field does not keep the persisted
total; the derived deserializer rejects the object and `load_data` falls
back to the empty store. -/
theorem C2_counterexample :
    load_data (DataFile.parsed (Json.obj [("total_count", Json.num 5)])) ≠
      { total_count := 5, daily_records := [] } := by
  decide

/-- Claim C2, amended: when a schema field is missing the whole file is
discarded and `load_data` returns the empty store, so present fields are not
preserved; unknown extra fields, in contrast, are ignored when both schema
fields are present. -/
theorem C2_missing_field_discards_file :
    load_data (DataFile.parsed (Json.obj [("total_count", Json.num 5)])) =
      KeystrokeData.new ∧
    load_data (DataFile.parsed (Json.obj [("daily_records", Json.arr [])])) =
      KeystrokeData.new ∧
    load_data (DataFile.parsed (Json.obj
        [("total_count", Json.num 5), ("daily_records", Json.arr []),
         ("some_unknown_field", Json.num 7)])) =
      { total_count := 5, daily_records := [] } := by
  decide

/-- Claim C7: loading a missing, malformed or unreadable data file, or a
parsable file of the wrong shape, yields the empty store; `load_data` is
total and never reports an error. -/
theorem C7_load_error_recovery :
    load_data DataFile.absent = KeystrokeData.new ∧
    load_data DataFile.malformed = KeystrokeData.new ∧
    load_data DataFile.unreadable = KeystrokeData.new ∧
    load_data (DataFile.parsed Json.null) = KeystrokeData.new ∧
    (load_data DataFile.absent).total_count = 0 ∧
    (load_data DataFile.absent).daily_records = [] := by
  decide

/-- Claim C3: incrementing the empty store once per element of a nonempty
sequence of clock readings that all fall in the day bucket `b` yields
`total_count` equal to the number of increments and a single record for `b`
carrying that same count, stamped with the first reading. -/
theorem C3_same_bucket_counts (t : Nat) (rest : List Nat) (b : String)
    (hb : ∀ x ∈ t :: rest, format_date_storage x = b) :
    (applyIncrements (t :: rest)).total_count = (t :: rest).length ∧
    (applyIncrements (t :: rest)).daily_records =
      [{ date := b, count := (t :: rest).length, timestamp := t }] := by
  have ht : format_date_storage t = b := hb t (List.mem_cons_self t rest)
  have hrest : ∀ x ∈ rest, format_date_storage x = b := fun x hx =>
    hb x (List.mem_cons_of_mem t hx)
  constructor
  · rw [applyIncrements, foldl_increment_total]
    simp [KeystrokeData.new]
  · have h1 : KeystrokeData.new.increment t =
        { total_count := 1,
          daily_records := [{ date := b, count := 1, timestamp := t }] } := by
      simp [KeystrokeData.new, KeystrokeData.increment, incrementRecords, ht]
    rw [applyIncrements]
    simp only [List.foldl_cons, h1]
    rw [foldl_increment_one_bucket b rest hrest]
    have hlen : 1 + rest.length = (t :: rest).length := by
      simp [Nat.add_comm]
    rw [hlen]

/-- Claim C3, witness: three increments at seconds 5, 100 and 86399, all in
day bucket `"0"`. -/
theorem C3_witness :
    (applyIncrements [5, 100, 86399]).total_count = 3 ∧
    (applyIncrements [5, 100, 86399]).daily_records =
      [{ date := "0", count := 3, timestamp := 5 }] :=
  C3_same_bucket_counts 5 [100, 86399] "0" (by decide)

/-- Claim C4: every store reachable from the empty store by increments has
pairwise distinct `date` keys, and one more increment either keeps the date
keys unchanged (its bucket already has a record, which is updated in place)
or appends exactly one new key at the end — never a duplicate. -/
theorem C4_unique_buckets (nows : List Nat) (now : Nat) :
    ((applyIncrements nows).daily_records.map DailyRecord.date).Nodup ∧
    ((applyIncrements nows).increment now).daily_records.map DailyRecord.date =
      (if format_date_storage now ∈
          (applyIncrements nows).daily_records.map DailyRecord.date
       then (applyIncrements nows).daily_records.map DailyRecord.date
       else (applyIncrements nows).daily_records.map DailyRecord.date ++
         [format_date_storage now]) :=
  ⟨applyIncrements_dates_nodup nows, increment_dates (applyIncrements nows) now⟩

/-- Claim C10: one increment leaves all records of other day buckets
unchanged, in order, and when the current bucket has no record yet it
appends a fresh record of count 1 stamped `now` at the end of the
collection. -/
theorem C10_increment_frame (d : KeystrokeData) (now : Nat) :
    ((d.increment now).daily_records.filter
        (fun r => decide (r.date ≠ format_date_storage now))) =
      d.daily_records.filter
        (fun r => decide (r.date ≠ format_date_storage now)) ∧
    (format_date_storage now ∉ d.daily_records.map DailyRecord.date →
      (d.increment now).daily_records =
        d.daily_records ++
          [{ date := format_date_storage now, count := 1, timestamp := now }]) := by
  constructor
  · exact incrementRecords_filter_other (format_date_storage now) now
      d.daily_records
  · intro h
    simp [KeystrokeData.increment,
      incrementRecords_of_not_mem (format_date_storage now) now d.daily_records h]

/-- Claim C10, witness: incrementing at second 10 (bucket `"0"`) a store
holding only a record for bucket `"1"` keeps that record and appends the
fresh record for `"0"`. -/
theorem C10_witness :
    ((({ total_count := 3,
         daily_records := [{ date := "1", count := 3, timestamp := 90000 }] } :
          KeystrokeData).increment 10).daily_records.filter
        (fun r => decide (r.date ≠ format_date_storage 10))) =
      ({ total_count := 3,
         daily_records := [{ date := "1", count := 3, timestamp := 90000 }] } :
          KeystrokeData).daily_records.filter
        (fun r => decide (r.date ≠ format_date_storage 10)) ∧
    (({ total_count := 3,
        daily_records := [{ date := "1", count := 3, timestamp := 90000 }] } :
         KeystrokeData).increment 10).daily_records =
      [{ date := "1", count := 3, timestamp := 90000 },
       { date := "0", count := 1, timestamp := 10 }] :=
  ⟨(C10_increment_frame
      { total_count := 3,
        daily_records := [{ date := "1", count := 3, timestamp := 90000 }] } 10).1,
   (C10_increment_frame
      { total_count := 3,
        daily_records := [{ date := "1", count := 3, timestamp := 90000 }] } 10).2
     (by decide)⟩

/-- Claim C5: once the current time is at least the 7-day window (and is a
`u64` value), the weekly sum equals the saturating specification sum: the
counts of exactly those records whose timestamp is at least
`now - 604800`. -/
theorem C5_weekly_window_exact (d : KeystrokeData) (now : Nat)
    (h1 : 604800 ≤ now) (h2 : now < U64_MOD) :
    get_weekly_stats d now = windowedSum_spec d now 604800 := by
  unfold get_weekly_stats windowedSum_spec
  rw [show (7 * 24 * 60 * 60 : Nat) = 604800 from rfl,
    u64_wrapping_sub_of_le now 604800 h1 h2]

/-- Claim C5, witness: at `now = 4000000`, a record three days old with
count 5 and a record forty days old with count 9 give a weekly sum of 5,
not 14. -/
theorem C5_witness :
    (604800 : Nat) ≤ 4000000 ∧
    get_weekly_stats
        { total_count := 14,
          daily_records :=
            [{ date := "43", count := 5, timestamp := 3740800 },
             { date := "6", count := 9, timestamp := 544000 }] } 4000000 =
      windowedSum_spec
        { total_count := 14,
          daily_records :=
            [{ date := "43", count := 5, timestamp := 3740800 },
             { date := "6", count := 9, timestamp := 544000 }] } 4000000 604800 ∧
    get_weekly_stats
        { total_count := 14,
          daily_records :=
            [{ date := "43", count := 5, timestamp := 3740800 },
             { date := "6", count := 9, timestamp := 544000 }] } 4000000 = 5 :=
  ⟨by decide,
   C5_weekly_window_exact _ 4000000 (by decide) (by decide),
   by decide⟩

/-- Claim C6: `get_daily_stats d n` is the first `n` elements of a
permutation of the daily records that is sorted by descending timestamp, and
its length is `n` capped at the number of records (so a short history is
returned whole). -/
theorem C6_recent_daily_sorted (d : KeystrokeData) (n : Nat) :
    ∃ l : List DailyRecord,
      l.Perm d.daily_records ∧
      l.Pairwise (fun a b => b.timestamp ≤ a.timestamp) ∧
      get_daily_stats d n = l.take n ∧
      (get_daily_stats d n).length = min n d.daily_records.length := by
  refine ⟨d.daily_records.mergeSort
      (fun a b => decide (b.timestamp ≤ a.timestamp)), ?_, ?_, rfl, ?_⟩
  · exact List.mergeSort_perm d.daily_records _
  · have hs := @List.sorted_mergeSort DailyRecord
      (fun a b : DailyRecord => decide (b.timestamp ≤ a.timestamp))
      (fun a b c hab hbc => by
        simp only [decide_eq_true_eq] at hab hbc ⊢
        omega)
      (fun a b => by
        simp only [Bool.or_eq_true, decide_eq_true_eq]
        omega)
      d.daily_records
    exact hs.imp fun h => of_decide_eq_true h
  · rw [get_daily_stats, List.length_take,
      (List.mergeSort_perm d.daily_records _).length_eq]

/-- Claim C8: `is_running` reports none on a missing PID file; when the file
names a PID, a failed liveness probe removes the stale file and reports
none, and a successful probe reports the PID with the file kept. -/
theorem C8_is_running_staleness (env : PidEnv) :
    (env.pidFile = PidFile.absent → is_running env = (none, PidFile.absent)) ∧
    (∀ c pid, env.pidFile = PidFile.readable c →
      parse_u32 (rustTrim c) = some pid →
      ((env.alive pid = false → is_running env = (none, PidFile.absent)) ∧
       (env.alive pid = true →
         is_running env = (some pid, PidFile.readable c)))) := by
  constructor
  · intro h
    simp [is_running, h]
  · intro c pid hc hp
    constructor
    · intro ha
      simp [is_running, hc, hp, ha]
    · intro ha
      simp [is_running, hc, hp, ha]

/-- Claim C8, witness: a PID file reading `" 4242\n"` (with surrounding
whitespace) reports none and is removed when PID 4242 is dead, and reports
4242 with the file kept when it is alive; a missing file reports none. -/
theorem C8_witness :
    is_running { pidFile := PidFile.absent, alive := fun _ => false } =
      (none, PidFile.absent) ∧
    is_running { pidFile := PidFile.readable " 4242\n", alive := fun _ => false } =
      (none, PidFile.absent) ∧
    is_running { pidFile := PidFile.readable " 4242\n", alive := fun _ => true } =
      (some 4242, PidFile.readable " 4242\n") :=
  ⟨(C8_is_running_staleness
      { pidFile := PidFile.absent, alive := fun _ => false }).1 rfl,
   ((C8_is_running_staleness
      { pidFile := PidFile.readable " 4242\n", alive := fun _ => false }).2
      " 4242\n" 4242 rfl (by decide)).1 rfl,
   ((C8_is_running_staleness
      { pidFile := PidFile.readable " 4242\n", alive := fun _ => true }).2
      " 4242\n" 4242 rfl (by decide)).2 rfl⟩

/-- Claim C9: saving any well-formed store and loading the saved file back
returns an equal store: same `total_count` and, bucket for bucket, the same
`date`, `count` and `timestamp`, in the same order. -/
theorem C9_save_load_roundtrip (d : KeystrokeData) (h : d.WF) :
    load_data (DataFile.parsed (save_data d)) = d :=
  load_save_roundtrip d h

/-- Claim C9, witness: round trip of a concrete two-bucket store. -/
theorem C9_witness :
    load_data (DataFile.parsed (save_data
        { total_count := 25,
          daily_records :=
            [{ date := "20000", count := 20, timestamp := 1728000000 },
             { date := "20001", count := 5, timestamp := 1728086400 }] })) =
      { total_count := 25,
        daily_records :=
          [{ date := "20000", count := 20, timestamp := 1728000000 },
           { date := "20001", count := 5, timestamp := 1728086400 }] } :=
  C9_save_load_roundtrip
    { total_count := 25,
      daily_records :=
        [{ date := "20000", count := 20, timestamp := 1728000000 },
         { date := "20001", count := 5, timestamp := 1728086400 }] }
    ⟨by decide, by decide⟩
